import Mathlib

/-!
Shallow embedding of the consultant-site core: the wallet commission
ledger (src/finance/models.py, src/finance/services.py) and the
application status transition engine (src/scholarships/models.py,
src/scholarships/utils.py).

Money amounts are Django `DecimalField` values (exact decimal
arithmetic, only added, subtracted and compared here), embedded as ℚ.
Database rows become Lean structures; raising `ValueError` inside
`transaction.atomic` (which rolls the transaction back) becomes an
`Except` error result that leaves the caller's state untouched;
timestamps (`timezone.now()`) are passed in explicitly as a ℕ clock
value.
-/

namespace ConsultantSite

/-- Money amount: a Django DecimalField value, embedded as an exact rational. -/
abbrev Money := ℚ

/-- Wallet row (src/finance/models.py, class Wallet): five DecimalFields,
each defaulting to 0.00. -/
structure Wallet where
  current_balance : Money
  upcoming_payments : Money
  pending_withdrawals : Money
  total_earned : Money
  total_withdrawn : Money
deriving DecidableEq, Repr

/-- Default Wallet produced by `Wallet.objects.get_or_create`: every amount
field defaults to Decimal 0.00. -/
def walletInit : Wallet :=
  { current_balance := 0
    upcoming_payments := 0
    pending_withdrawals := 0
    total_earned := 0
    total_withdrawn := 0 }

/-- Status of a WithdrawalRequest (src/finance/models.py, STATUS_CHOICES). -/
inductive WStatus
  | pending
  | approved
  | rejected
deriving DecidableEq, Repr

/-- WithdrawalRequest row (src/finance/models.py): amount, status
(default pending) and the optional rejection reason. The timestamp and
processed_by bookkeeping fields are not read back by any ledger
operation and are omitted. -/
structure WithdrawalRequest where
  amount : Money
  status : WStatus
  rejection_reason : Option String
deriving DecidableEq, Repr

/-- WalletTransaction type (src/finance/models.py, TRANSACTION_TYPES). -/
inductive TxnType
  | earning
  | withdrawal
  | balance_transfer
deriving DecidableEq, Repr

/-- WalletTransaction status (src/finance/models.py, TRANSACTION_STATUS). -/
inductive TxnStatus
  | pending
  | completed
  | cancelled
deriving DecidableEq, Repr

/-- WalletTransaction row (src/finance/models.py). The free-text
description is embedded only through `requestRef`, the withdrawal-request
id the source interpolates into the description and later matches with
`description__contains`. -/
structure WalletTransaction where
  type : TxnType
  amount : Money
  status : TxnStatus
  requestRef : Option ℕ
deriving DecidableEq, Repr

/-- ValueError conditions raised by the ledger services
(src/finance/services.py); the spec names them BelowMinimum,
InsufficientFunds and InvalidState. -/
inductive LedgerError
  | belowMinimum
  | insufficientFunds
  | invalidState
deriving DecidableEq, Repr

/-- Embedding of request_withdrawal (src/finance/services.py lines
126-156), restricted to the wallet row and the created request row.
The source checks the $100 minimum first, then the balance; on success
it moves the amount from current_balance to pending_withdrawals and
creates a pending WithdrawalRequest. The companion WalletTransaction
write is modelled in `step` below. -/
def request_withdrawal (wallet : Wallet) (amount : Money) :
    Except LedgerError (Wallet × WithdrawalRequest) :=
  if amount < 100 then Except.error LedgerError.belowMinimum
  else if wallet.current_balance < amount then Except.error LedgerError.insufficientFunds
  else
    Except.ok
      ({ wallet with
          current_balance := wallet.current_balance - amount
          pending_withdrawals := wallet.pending_withdrawals + amount },
       { amount := amount, status := WStatus.pending, rejection_reason := none })

/-- Embedding of approve_withdrawal (src/finance/services.py lines
159-184): only pending requests may be approved; the amount moves from
pending_withdrawals to total_withdrawn and the request becomes
approved. -/
def approve_withdrawal (wallet : Wallet) (withdrawal_request : WithdrawalRequest) :
    Except LedgerError (Wallet × WithdrawalRequest) :=
  if withdrawal_request.status ≠ WStatus.pending then Except.error LedgerError.invalidState
  else
    Except.ok
      ({ wallet with
          pending_withdrawals := wallet.pending_withdrawals - withdrawal_request.amount
          total_withdrawn := wallet.total_withdrawn + withdrawal_request.amount },
       { withdrawal_request with status := WStatus.approved })

/-- Embedding of reject_withdrawal (src/finance/services.py lines
187-213): only pending requests may be rejected; the amount returns from
pending_withdrawals to current_balance, the request becomes rejected and
stores the reason. -/
def reject_withdrawal (wallet : Wallet) (withdrawal_request : WithdrawalRequest)
    (reason : String) : Except LedgerError (Wallet × WithdrawalRequest) :=
  if withdrawal_request.status ≠ WStatus.pending then Except.error LedgerError.invalidState
  else
    Except.ok
      ({ wallet with
          pending_withdrawals := wallet.pending_withdrawals - withdrawal_request.amount
          current_balance := wallet.current_balance + withdrawal_request.amount },
       { withdrawal_request with
          status := WStatus.rejected
          rejection_reason := some reason })

/-- Application.status values (src/scholarships/models.py,
STATUS_CHOICES); the model default is draft. -/
inductive AppStatus
  | draft
  | submitted
  | under_review
  | documents_verified
  | payment_verified
  | approved
  | rejected
  | in_progress
  | admission_letter_uploaded
  | admission_letter_approved
  | jw02_uploaded
  | jw02_approved
  | letter_pending
  | jw02_pending
  | complete
deriving DecidableEq, Repr

/-- ApplicationStatusHistory row (src/scholarships/models.py lines
194-211): old_status is nullable in the schema, new_status is not;
changed_by is a user reference (embedded as a ℕ user id), note is
optional, changed_at is the creation timestamp. -/
structure StatusHistoryEntry where
  old_status : Option AppStatus
  new_status : AppStatus
  changed_by : ℕ
  note : Option String
  changed_at : ℕ
deriving DecidableEq, Repr

/-- Commission fields of the scholarships model
(src/scholarships/models.py, class scholarships); the remaining fields
(name, price, deadline, ...) are never read by the embedded operations. -/
structure Scholarship where
  agent_commission : Money
  hq_commission : Money
deriving DecidableEq, Repr

/-- Application row (src/scholarships/models.py, class Application),
restricted to the fields the transition engine and the commission flow
read or write. assigned_agent and assigned_hq are nullable user
references (ℕ user ids); history is the application's
ApplicationStatusHistory rows in creation order (the model reads them
back ordered by changed_at descending, i.e. most recent = last created). -/
structure Application where
  scholarship : Scholarship
  assigned_agent : Option ℕ
  assigned_hq : Option ℕ
  status : AppStatus
  approved_date : Option ℕ
  completed_date : Option ℕ
  history : List StatusHistoryEntry
deriving DecidableEq, Repr

/-- Freshly created Application: status defaults to draft, the milestone
dates are null and no history rows exist yet. -/
def newApplication (scholarship : Scholarship) (agent hq : Option ℕ) : Application :=
  { scholarship := scholarship
    assigned_agent := agent
    assigned_hq := hq
    status := AppStatus.draft
    approved_date := none
    completed_date := none
    history := [] }

/-- Embedding of change_application_status (src/scholarships/utils.py
lines 9-39): record the old status, set the new one, stamp
approved_date / completed_date on the approved / complete milestones
(an if/elif chain in the source), and append one audit-trail row. -/
def change_application_status (application : Application) (new_status : AppStatus)
    (changed_by : ℕ) (note : Option String) (now : ℕ) : Application :=
  let old_status := application.status
  let application := { application with status := new_status }
  let application :=
    if new_status = AppStatus.approved then
      { application with approved_date := some now }
    else if new_status = AppStatus.complete then
      { application with completed_date := some now }
    else application
  { application with
      history := application.history ++
        [{ old_status := some old_status
           new_status := new_status
           changed_by := changed_by
           note := note
           changed_at := now }] }

/-- Arguments of one change_application_status call. -/
structure Mutation where
  new_status : AppStatus
  changed_by : ℕ
  note : Option String
  now : ℕ
deriving DecidableEq, Repr

/-- Apply a sequence of transition-engine calls to an application. -/
def applyMutations (application : Application) (ms : List Mutation) : Application :=
  ms.foldl
    (fun a m => change_application_status a m.new_status m.changed_by m.note m.now)
    application

/-- Spec invariant on an application: status equals the new_status of the
most recent history entry, or the model default draft when no history
row exists. -/
def statusInvariant (application : Application) : Prop :=
  match application.history.getLast? with
  | none => application.status = AppStatus.draft
  | some e => application.status = e.new_status

/-- Embedding of get_or_create_wallet (src/finance/services.py lines
19-22): the wallet table is a total map from user ids to wallet rows in
which a user without a row so far is at walletInit (the row get_or_create
would create). -/
def get_or_create_wallet (wallets : ℕ → Wallet) (user : ℕ) : Wallet :=
  wallets user

/-- Embedding of add_upcoming_payments (src/finance/services.py lines
25-64), restricted to the wallet table: for the assigned agent (when set
and agent_commission > 0) credit agent_commission to upcoming_payments,
then likewise for the assigned HQ user with hq_commission. Returns the
updated wallet table and the results dict (agent and hq credited
amounts). The companion WalletTransaction writes are modelled per wallet
in `step` below. -/
def add_upcoming_payments (application : Application) (wallets : ℕ → Wallet) :
    (ℕ → Wallet) × (Option Money × Option Money) :=
  let scholarship := application.scholarship
  let afterAgent : (ℕ → Wallet) × Option Money :=
    match application.assigned_agent with
    | some agentUser =>
        if 0 < scholarship.agent_commission then
          let agent_wallet := get_or_create_wallet wallets agentUser
          (Function.update wallets agentUser
            { agent_wallet with
                upcoming_payments := agent_wallet.upcoming_payments + scholarship.agent_commission },
           some scholarship.agent_commission)
        else (wallets, none)
    | none => (wallets, none)
  let afterHq : (ℕ → Wallet) × Option Money :=
    match application.assigned_hq with
    | some hqUser =>
        if 0 < scholarship.hq_commission then
          let hq_wallet := get_or_create_wallet afterAgent.1 hqUser
          (Function.update afterAgent.1 hqUser
            { hq_wallet with
                upcoming_payments := hq_wallet.upcoming_payments + scholarship.hq_commission },
           some scholarship.hq_commission)
        else (afterAgent.1, none)
    | none => (afterAgent.1, none)
  (afterHq.1, (afterAgent.2, afterHq.2))

/-- Embedding of move_to_balance (src/finance/services.py lines 67-123),
restricted to the wallet table: for the assigned agent (when set and
agent_commission > 0) move agent_commission from upcoming_payments to
current_balance and add it to total_earned — without any check that
upcoming_payments covers it — then likewise for the assigned HQ user
with hq_commission. -/
def move_to_balance (application : Application) (wallets : ℕ → Wallet) :
    (ℕ → Wallet) × (Option Money × Option Money) :=
  let scholarship := application.scholarship
  let afterAgent : (ℕ → Wallet) × Option Money :=
    match application.assigned_agent with
    | some agentUser =>
        if 0 < scholarship.agent_commission then
          let agent_wallet := get_or_create_wallet wallets agentUser
          (Function.update wallets agentUser
            { agent_wallet with
                upcoming_payments := agent_wallet.upcoming_payments - scholarship.agent_commission
                current_balance := agent_wallet.current_balance + scholarship.agent_commission
                total_earned := agent_wallet.total_earned + scholarship.agent_commission },
           some scholarship.agent_commission)
        else (wallets, none)
    | none => (wallets, none)
  let afterHq : (ℕ → Wallet) × Option Money :=
    match application.assigned_hq with
    | some hqUser =>
        if 0 < scholarship.hq_commission then
          let hq_wallet := get_or_create_wallet afterAgent.1 hqUser
          (Function.update afterAgent.1 hqUser
            { hq_wallet with
                upcoming_payments := hq_wallet.upcoming_payments - scholarship.hq_commission
                current_balance := hq_wallet.current_balance + scholarship.hq_commission
                total_earned := hq_wallet.total_earned + scholarship.hq_commission },
           some scholarship.hq_commission)
        else (afterAgent.1, none)
    | none => (afterAgent.1, none)
  (afterHq.1, (afterAgent.2, afterHq.2))

/-- State of one user's ledger: the wallet row, the user's
WithdrawalRequest rows in creation order (a request's primary key is its
index in this list) and the user's WalletTransaction rows in creation
order. This is the per-wallet projection of the database state the
finance services mutate. -/
structure LedgerState where
  wallet : Wallet
  requests : List WithdrawalRequest
  txns : List WalletTransaction
deriving DecidableEq, Repr

/-- State of one user's ledger right after the wallet row is lazily
created: default wallet, no requests, no transactions. -/
def ledgerInit : LedgerState :=
  { wallet := walletInit, requests := [], txns := [] }

/-- One ledger operation as seen by a single wallet. For the two
commission operations, `c` is the commission amount this wallet's user
is assigned (agent_commission or hq_commission); the source runs the
credit only under `assigned and commission > 0`, and a wallet whose user
is not the assigned party is untouched, which the `0 < c` guard in
`step` also covers (an unassigned wallet corresponds to no operation at
all). Withdrawal requests are addressed by their index in
LedgerState.requests. -/
inductive Op
  | addUpcoming (c : Money)
  | moveToBalance (c : Money)
  | requestWithdrawal (amount : Money)
  | approveWithdrawal (i : ℕ)
  | rejectWithdrawal (i : ℕ) (reason : String)
deriving DecidableEq, Repr

/-- Update move_to_balance performs on this wallet's pending earning
transactions (src/finance/services.py lines 84-89): status becomes
completed. -/
def completeEarning (t : WalletTransaction) : WalletTransaction :=
  if t.type = TxnType.earning ∧ t.status = TxnStatus.pending then
    { t with status := TxnStatus.completed }
  else t

/-- Update approve_withdrawal performs on the matching pending withdrawal
transaction (src/finance/services.py lines 176-182): the filter matches
type, pending status, the amount and the request id in the description. -/
def completeWithdrawalTxn (amount : Money) (ref : ℕ) (t : WalletTransaction) :
    WalletTransaction :=
  if t.type = TxnType.withdrawal ∧ t.status = TxnStatus.pending ∧
      t.amount = amount ∧ t.requestRef = some ref then
    { t with status := TxnStatus.completed }
  else t

/-- Update reject_withdrawal performs on the matching pending withdrawal
transaction (src/finance/services.py lines 205-211): status becomes
cancelled. -/
def cancelWithdrawalTxn (amount : Money) (ref : ℕ) (t : WalletTransaction) :
    WalletTransaction :=
  if t.type = TxnType.withdrawal ∧ t.status = TxnStatus.pending ∧
      t.amount = amount ∧ t.requestRef = some ref then
    { t with status := TxnStatus.cancelled }
  else t

/-- One ledger operation applied to one user's ledger state. Service
calls that raise ValueError run inside transaction.atomic, so the state
is unchanged on error. -/
def step (s : LedgerState) : Op → LedgerState
  | Op.addUpcoming c =>
      if 0 < c then
        { s with
            wallet := { s.wallet with upcoming_payments := s.wallet.upcoming_payments + c }
            txns := s.txns ++
              [{ type := TxnType.earning, amount := c,
                 status := TxnStatus.pending, requestRef := none }] }
      else s
  | Op.moveToBalance c =>
      if 0 < c then
        { s with
            wallet := { s.wallet with
              upcoming_payments := s.wallet.upcoming_payments - c
              current_balance := s.wallet.current_balance + c
              total_earned := s.wallet.total_earned + c }
            txns := (s.txns.map completeEarning) ++
              [{ type := TxnType.balance_transfer, amount := c,
                 status := TxnStatus.completed, requestRef := none }] }
      else s
  | Op.requestWithdrawal amount =>
      match request_withdrawal s.wallet amount with
      | Except.ok (w, r) =>
          { wallet := w
            requests := s.requests ++ [r]
            txns := s.txns ++
              [{ type := TxnType.withdrawal, amount := amount,
                 status := TxnStatus.pending, requestRef := some s.requests.length }] }
      | Except.error _ => s
  | Op.approveWithdrawal i =>
      if h : i < s.requests.length then
        match approve_withdrawal s.wallet (s.requests.get ⟨i, h⟩) with
        | Except.ok (w, r) =>
            { wallet := w
              requests := s.requests.set i r
              txns := s.txns.map (completeWithdrawalTxn (s.requests.get ⟨i, h⟩).amount i) }
        | Except.error _ => s
      else s
  | Op.rejectWithdrawal i reason =>
      if h : i < s.requests.length then
        match reject_withdrawal s.wallet (s.requests.get ⟨i, h⟩) reason with
        | Except.ok (w, r) =>
            { wallet := w
              requests := s.requests.set i r
              txns := s.txns.map (cancelWithdrawalTxn (s.requests.get ⟨i, h⟩).amount i) }
        | Except.error _ => s
      else s

/-- Run a sequence of ledger operations. -/
def run (s : LedgerState) (ops : List Op) : LedgerState :=
  ops.foldl step s

/-- Amount a request contributes to the wallet's pending_withdrawals
bucket: its amount while pending, 0 once processed. -/
def pendAmt (r : WithdrawalRequest) : Money :=
  if r.status = WStatus.pending then r.amount else 0

/-- Total amount of the pending withdrawal requests in a list. -/
def pendingSum : List WithdrawalRequest → Money
  | [] => 0
  | r :: rs => pendAmt r + pendingSum rs

theorem pendAmt_nonneg {r : WithdrawalRequest} (h : 0 ≤ r.amount) : 0 ≤ pendAmt r := by
  unfold pendAmt
  split
  · exact h
  · exact le_refl 0

theorem pendingSum_nonneg {l : List WithdrawalRequest}
    (h : ∀ r ∈ l, 0 ≤ r.amount) : 0 ≤ pendingSum l := by
  induction l with
  | nil => exact le_refl 0
  | cons a as ih =>
      exact add_nonneg (pendAmt_nonneg (h a (List.mem_cons_self a as)))
        (ih fun r hr => h r (List.mem_cons_of_mem a hr))

theorem pendingSum_append (l : List WithdrawalRequest) (r : WithdrawalRequest) :
    pendingSum (l ++ [r]) = pendingSum l + pendAmt r := by
  induction l with
  | nil => simp [pendingSum]
  | cons a as ih => simp [pendingSum, ih]; ring

theorem pendingSum_set (l : List WithdrawalRequest) (i : ℕ) (x : WithdrawalRequest)
    (h : i < l.length) :
    pendingSum (l.set i x) = pendingSum l - pendAmt (l.get ⟨i, h⟩) + pendAmt x := by
  induction l generalizing i with
  | nil => simp at h
  | cons a as ih =>
      cases i with
      | zero => simp [pendingSum]; ring
      | succ n =>
          have hn : n < as.length := Nat.lt_of_succ_lt_succ h
          simp [pendingSum, ih n hn]
          ring

/-- Outcome of request_withdrawal when the amount is below the minimum. -/
theorem request_withdrawal_below_min (wallet : Wallet) {amount : Money}
    (h : amount < 100) :
    request_withdrawal wallet amount = Except.error LedgerError.belowMinimum := by
  simp [request_withdrawal, h]

/-- Outcome of request_withdrawal when the balance does not cover the
amount (and the minimum check passed). -/
theorem request_withdrawal_insufficient {wallet : Wallet} {amount : Money}
    (hmin : ¬ amount < 100) (hbal : wallet.current_balance < amount) :
    request_withdrawal wallet amount = Except.error LedgerError.insufficientFunds := by
  simp [request_withdrawal, hmin, hbal]

/-- Outcome of a successful request_withdrawal. -/
theorem request_withdrawal_ok {wallet : Wallet} {amount : Money}
    (hmin : ¬ amount < 100) (hbal : ¬ wallet.current_balance < amount) :
    request_withdrawal wallet amount =
      Except.ok
        ({ wallet with
            current_balance := wallet.current_balance - amount
            pending_withdrawals := wallet.pending_withdrawals + amount },
         { amount := amount, status := WStatus.pending, rejection_reason := none }) := by
  simp [request_withdrawal, hmin, hbal]

/-- Outcome of approve_withdrawal on a pending request. -/
theorem approve_withdrawal_pending {wallet : Wallet} {r : WithdrawalRequest}
    (hp : r.status = WStatus.pending) :
    approve_withdrawal wallet r =
      Except.ok
        ({ wallet with
            pending_withdrawals := wallet.pending_withdrawals - r.amount
            total_withdrawn := wallet.total_withdrawn + r.amount },
         { r with status := WStatus.approved }) := by
  simp [approve_withdrawal, hp]

/-- Outcome of approve_withdrawal on a non-pending request. -/
theorem approve_withdrawal_not_pending {wallet : Wallet} {r : WithdrawalRequest}
    (hp : r.status ≠ WStatus.pending) :
    approve_withdrawal wallet r = Except.error LedgerError.invalidState := by
  simp [approve_withdrawal, hp]

/-- Outcome of reject_withdrawal on a pending request. -/
theorem reject_withdrawal_pending {wallet : Wallet} {r : WithdrawalRequest}
    (reason : String) (hp : r.status = WStatus.pending) :
    reject_withdrawal wallet r reason =
      Except.ok
        ({ wallet with
            pending_withdrawals := wallet.pending_withdrawals - r.amount
            current_balance := wallet.current_balance + r.amount },
         { r with status := WStatus.rejected, rejection_reason := some reason }) := by
  simp [reject_withdrawal, hp]

/-- Outcome of reject_withdrawal on a non-pending request. -/
theorem reject_withdrawal_not_pending {wallet : Wallet} {r : WithdrawalRequest}
    (reason : String) (hp : r.status ≠ WStatus.pending) :
    reject_withdrawal wallet r reason = Except.error LedgerError.invalidState := by
  simp [reject_withdrawal, hp]

/-- Ledger invariant: the balance and the two running totals are
non-negative, pending_withdrawals is exactly the total amount of the
pending requests, and every request amount is non-negative. -/
def LedgerInv (s : LedgerState) : Prop :=
  0 ≤ s.wallet.current_balance ∧
  0 ≤ s.wallet.total_earned ∧
  0 ≤ s.wallet.total_withdrawn ∧
  s.wallet.pending_withdrawals = pendingSum s.requests ∧
  ∀ r ∈ s.requests, 0 ≤ r.amount

theorem LedgerInv_init : LedgerInv ledgerInit := by
  refine ⟨le_refl 0, le_refl 0, le_refl 0, rfl, ?_⟩
  intro r hr
  simp [ledgerInit] at hr

theorem step_preserves {s : LedgerState} (h : LedgerInv s) (op : Op) :
    LedgerInv (step s op) := by
  obtain ⟨h1, h2, h3, h4, h5⟩ := h
  cases op with
  | addUpcoming c =>
      by_cases hc : 0 < c
      · simp only [step, if_pos hc]
        exact ⟨h1, h2, h3, h4, h5⟩
      · simp only [step, if_neg hc]
        exact ⟨h1, h2, h3, h4, h5⟩
  | moveToBalance c =>
      by_cases hc : 0 < c
      · simp only [step, if_pos hc]
        exact ⟨add_nonneg h1 hc.le, add_nonneg h2 hc.le, h3, h4, h5⟩
      · simp only [step, if_neg hc]
        exact ⟨h1, h2, h3, h4, h5⟩
  | requestWithdrawal a =>
      by_cases hmin : a < 100
      · simp only [step, request_withdrawal_below_min s.wallet hmin]
        exact ⟨h1, h2, h3, h4, h5⟩
      · by_cases hbal : s.wallet.current_balance < a
        · simp only [step, request_withdrawal_insufficient hmin hbal]
          exact ⟨h1, h2, h3, h4, h5⟩
        · have ha : (0 : Money) ≤ a := le_trans (by norm_num) (not_lt.mp hmin)
          simp only [step, request_withdrawal_ok hmin hbal]
          refine ⟨sub_nonneg.mpr (not_lt.mp hbal), h2, h3, ?_, ?_⟩
          · rw [pendingSum_append, h4]
            simp [pendAmt]
          · intro r hr
            rcases List.mem_append.mp hr with hr | hr
            · exact h5 r hr
            · simp at hr
              rw [hr]
              exact ha
  | approveWithdrawal i =>
      by_cases hi : i < s.requests.length
      · by_cases hp : (s.requests.get ⟨i, hi⟩).status = WStatus.pending
        · simp only [step, dif_pos hi, approve_withdrawal_pending hp]
          have hmem : s.requests.get ⟨i, hi⟩ ∈ s.requests := List.get_mem s.requests i hi
          have hamt : 0 ≤ (s.requests.get ⟨i, hi⟩).amount := h5 _ hmem
          have hp2 : s.requests[i].status = WStatus.pending := hp
          refine ⟨h1, h2, add_nonneg h3 hamt, ?_, ?_⟩
          · rw [pendingSum_set s.requests i _ hi, h4]
            simp [pendAmt, hp2]
          · intro r hr
            rcases List.mem_or_eq_of_mem_set hr with hr | hr
            · exact h5 r hr
            · rw [hr]
              exact hamt
        · simp only [step, dif_pos hi, approve_withdrawal_not_pending hp]
          exact ⟨h1, h2, h3, h4, h5⟩
      · simp only [step, dif_neg hi]
        exact ⟨h1, h2, h3, h4, h5⟩
  | rejectWithdrawal i reason =>
      by_cases hi : i < s.requests.length
      · by_cases hp : (s.requests.get ⟨i, hi⟩).status = WStatus.pending
        · simp only [step, dif_pos hi, reject_withdrawal_pending reason hp]
          have hmem : s.requests.get ⟨i, hi⟩ ∈ s.requests := List.get_mem s.requests i hi
          have hamt : 0 ≤ (s.requests.get ⟨i, hi⟩).amount := h5 _ hmem
          have hp2 : s.requests[i].status = WStatus.pending := hp
          refine ⟨add_nonneg h1 hamt, h2, h3, ?_, ?_⟩
          · rw [pendingSum_set s.requests i _ hi, h4]
            simp [pendAmt, hp2]
          · intro r hr
            rcases List.mem_or_eq_of_mem_set hr with hr | hr
            · exact h5 r hr
            · rw [hr]
              exact hamt
        · simp only [step, dif_pos hi, reject_withdrawal_not_pending reason hp]
          exact ⟨h1, h2, h3, h4, h5⟩
      · simp only [step, dif_neg hi]
        exact ⟨h1, h2, h3, h4, h5⟩

theorem run_preserves {s : LedgerState} (h : LedgerInv s) (ops : List Op) :
    LedgerInv (run s ops) := by
  induction ops generalizing s with
  | nil => exact h
  | cons op ops ih => exact ih (step_preserves h op)

/-- Effect of one transition-engine call on the history: exactly one new
entry, carrying the pre-call status as old_status. -/
theorem change_status_history (application : Application) (new_status : AppStatus)
    (changed_by : ℕ) (note : Option String) (now : ℕ) :
    (change_application_status application new_status changed_by note now).history =
      application.history ++
        [{ old_status := some application.status
           new_status := new_status
           changed_by := changed_by
           note := note
           changed_at := now }] := by
  unfold change_application_status
  split
  · rfl
  · split <;> rfl

/-- Effect of one transition-engine call on the status field. -/
theorem change_status_status (application : Application) (new_status : AppStatus)
    (changed_by : ℕ) (note : Option String) (now : ℕ) :
    (change_application_status application new_status changed_by note now).status =
      new_status := by
  unfold change_application_status
  split
  · rfl
  · split <;> rfl

/-- One transition-engine call establishes the status/history invariant
unconditionally. -/
theorem change_status_invariant (application : Application) (new_status : AppStatus)
    (changed_by : ℕ) (note : Option String) (now : ℕ) :
    statusInvariant (change_application_status application new_status changed_by note now) := by
  unfold statusInvariant
  rw [change_status_history, List.getLast?_concat]
  exact change_status_status application new_status changed_by note now

theorem applyMutations_invariant (ms : List Mutation) (application : Application)
    (h : statusInvariant application) :
    statusInvariant (applyMutations application ms) := by
  induction ms generalizing application with
  | nil => exact h
  | cons m ms ih =>
      exact ih (change_application_status application m.new_status m.changed_by m.note m.now)
        (change_status_invariant application m.new_status m.changed_by m.note m.now)

/-- C2: for every application whose mutations all go through
change_application_status, starting from a freshly created (draft,
empty-history) application, the status field equals the new_status of
the most recent ApplicationStatusHistory entry, or the default initial
state draft when no history entry exists. -/
theorem C2_status_matches_history (scholarship : Scholarship) (agent hq : Option ℕ)
    (ms : List Mutation) :
    statusInvariant (applyMutations (newApplication scholarship agent hq) ms) := by
  apply applyMutations_invariant
  rfl

/-- C3: change_application_status records old_status as the status before
the call, sets the status to new_status, stamps approved_date with the
current time exactly when new_status is approved and completed_date
exactly when it is complete, and appends exactly one history entry
carrying (old_status, new_status, actor, note); in particular a fresh
draft application transitioned to submitted ends with status submitted
and a single draft→submitted history entry. -/
theorem C3_transition_effects (application : Application) (new_status : AppStatus)
    (actor : ℕ) (note : Option String) (now : ℕ) :
    (change_application_status application new_status actor note now).status = new_status ∧
    (change_application_status application new_status actor note now).history =
      application.history ++
        [{ old_status := some application.status
           new_status := new_status
           changed_by := actor
           note := note
           changed_at := now }] ∧
    (change_application_status application new_status actor note now).approved_date =
      (if new_status = AppStatus.approved then some now else application.approved_date) ∧
    (change_application_status application new_status actor note now).completed_date =
      (if new_status = AppStatus.complete then some now else application.completed_date) ∧
    (∀ scholarship : Scholarship, ∀ agent hq : Option ℕ,
      (change_application_status (newApplication scholarship agent hq)
          AppStatus.submitted actor note now).status = AppStatus.submitted ∧
      (change_application_status (newApplication scholarship agent hq)
          AppStatus.submitted actor note now).history =
        [{ old_status := some AppStatus.draft
           new_status := AppStatus.submitted
           changed_by := actor
           note := note
           changed_at := now }]) := by
  refine ⟨change_status_status application new_status actor note now,
    change_status_history application new_status actor note now, ?_, ?_, ?_⟩
  · unfold change_application_status
    by_cases h1 : new_status = AppStatus.approved
    · simp [h1]
    · by_cases h2 : new_status = AppStatus.complete
      · simp [h1, h2]
      · simp [h1, h2]
  · unfold change_application_status
    by_cases h1 : new_status = AppStatus.approved
    · subst h1
      simp
    · by_cases h2 : new_status = AppStatus.complete
      · simp [h1, h2]
      · simp [h1, h2]
  · intro scholarship agent hq
    exact ⟨rfl, rfl⟩

/-- Effect of add_upcoming_payments on the assigned agent's wallet (when
the agent is set, the commission is positive, and the HQ user is a
different user). -/
theorem add_upcoming_agent_eq (wallets : ℕ → Wallet) {application : Application} {u : ℕ}
    (ha : application.assigned_agent = some u)
    (hpos : 0 < application.scholarship.agent_commission)
    (hne : application.assigned_hq ≠ some u) :
    (add_upcoming_payments application wallets).1 u =
      { wallets u with
          upcoming_payments :=
            (wallets u).upcoming_payments + application.scholarship.agent_commission } := by
  unfold add_upcoming_payments
  simp only [ha, get_or_create_wallet, if_pos hpos]
  cases hhq : application.assigned_hq with
  | none => simp [Function.update_same]
  | some v =>
      have hvu : v ≠ u := by
        intro h
        exact hne (h ▸ hhq)
      by_cases hq : 0 < application.scholarship.hq_commission
      · simp only [if_pos hq]
        rw [Function.update_noteq (Ne.symm hvu), Function.update_same]
      · simp only [if_neg hq]
        rw [Function.update_same]

/-- Effect of add_upcoming_payments on the assigned HQ user's wallet
(when the HQ user is set, the commission is positive, and the agent is a
different user). -/
theorem add_upcoming_hq_eq (wallets : ℕ → Wallet) {application : Application} {v : ℕ}
    (hh : application.assigned_hq = some v)
    (hpos : 0 < application.scholarship.hq_commission)
    (hne : application.assigned_agent ≠ some v) :
    (add_upcoming_payments application wallets).1 v =
      { wallets v with
          upcoming_payments :=
            (wallets v).upcoming_payments + application.scholarship.hq_commission } := by
  unfold add_upcoming_payments
  simp only [hh, get_or_create_wallet, if_pos hpos]
  cases hag : application.assigned_agent with
  | none => simp [Function.update_same]
  | some u =>
      have huv : u ≠ v := by
        intro h
        exact hne (h ▸ hag)
      by_cases hc : 0 < application.scholarship.agent_commission
      · simp only [if_pos hc]
        rw [Function.update_same, Function.update_noteq (Ne.symm huv)]
      · simp only [if_neg hc]
        rw [Function.update_same]

/-- Effect of move_to_balance on the assigned agent's wallet (when the
agent is set, the commission is positive, and the HQ user is a different
user). -/
theorem move_to_balance_agent_eq (wallets : ℕ → Wallet) {application : Application} {u : ℕ}
    (ha : application.assigned_agent = some u)
    (hpos : 0 < application.scholarship.agent_commission)
    (hne : application.assigned_hq ≠ some u) :
    (move_to_balance application wallets).1 u =
      { wallets u with
          upcoming_payments :=
            (wallets u).upcoming_payments - application.scholarship.agent_commission
          current_balance :=
            (wallets u).current_balance + application.scholarship.agent_commission
          total_earned :=
            (wallets u).total_earned + application.scholarship.agent_commission } := by
  unfold move_to_balance
  simp only [ha, get_or_create_wallet, if_pos hpos]
  cases hhq : application.assigned_hq with
  | none => simp [Function.update_same]
  | some v =>
      have hvu : v ≠ u := by
        intro h
        exact hne (h ▸ hhq)
      by_cases hq : 0 < application.scholarship.hq_commission
      · simp only [if_pos hq]
        rw [Function.update_noteq (Ne.symm hvu), Function.update_same]
      · simp only [if_neg hq]
        rw [Function.update_same]

/-- Effect of move_to_balance on the assigned HQ user's wallet (when the
HQ user is set, the commission is positive, and the agent is a different
user). -/
theorem move_to_balance_hq_eq (wallets : ℕ → Wallet) {application : Application} {v : ℕ}
    (hh : application.assigned_hq = some v)
    (hpos : 0 < application.scholarship.hq_commission)
    (hne : application.assigned_agent ≠ some v) :
    (move_to_balance application wallets).1 v =
      { wallets v with
          upcoming_payments :=
            (wallets v).upcoming_payments - application.scholarship.hq_commission
          current_balance :=
            (wallets v).current_balance + application.scholarship.hq_commission
          total_earned :=
            (wallets v).total_earned + application.scholarship.hq_commission } := by
  unfold move_to_balance
  simp only [hh, get_or_create_wallet, if_pos hpos]
  cases hag : application.assigned_agent with
  | none => simp [Function.update_same]
  | some u =>
      have huv : u ≠ v := by
        intro h
        exact hne (h ▸ hag)
      by_cases hc : 0 < application.scholarship.agent_commission
      · simp only [if_pos hc]
        rw [Function.update_same, Function.update_noteq (Ne.symm huv)]
      · simp only [if_neg hc]
        rw [Function.update_same]

/-- C1 counterexample: the claim that all five wallet amount fields stay
non-negative after every ledger operation from a fresh wallet is false —
move_to_balance subtracts the commission from upcoming_payments without
any check, so running it alone on a fresh wallet drives
upcoming_payments to -5 < 0. -/
theorem C1_counterexample :
    (run ledgerInit [Op.moveToBalance 5]).wallet.upcoming_payments < 0 := by
  norm_num [run, step, ledgerInit, walletInit]

/-- C1 (amended): for every sequence of ledger operations starting from a
freshly created wallet, current_balance, pending_withdrawals,
total_earned and total_withdrawn are ≥ 0 after every operation;
upcoming_payments is excluded because move_to_balance subtracts the
commission without checking it is covered. -/
theorem C1_ledger_nonneg (ops : List Op) :
    0 ≤ (run ledgerInit ops).wallet.current_balance ∧
    0 ≤ (run ledgerInit ops).wallet.pending_withdrawals ∧
    0 ≤ (run ledgerInit ops).wallet.total_earned ∧
    0 ≤ (run ledgerInit ops).wallet.total_withdrawn := by
  obtain ⟨h1, h2, h3, h4, h5⟩ := run_preserves LedgerInv_init ops
  refine ⟨h1, ?_, h2, h3⟩
  rw [h4]
  exact pendingSum_nonneg h5

/-- C4: crediting one wallet through add_upcoming_payments increases that
wallet's upcoming_payments by exactly the commission X and changes no
other field; move_to_balance on that wallet decreases upcoming_payments
by X, increases current_balance and total_earned by X, and leaves
pending_withdrawals and total_withdrawn unchanged — stated for the
assigned agent's wallet and, symmetrically, the assigned HQ user's
wallet. -/
theorem C4_commission_frame (wallets : ℕ → Wallet) (application : Application)
    (u : ℕ) (X : Money) :
    (application.assigned_agent = some u →
      application.scholarship.agent_commission = X → 0 < X →
      application.assigned_hq ≠ some u →
      (add_upcoming_payments application wallets).1 u =
        { wallets u with upcoming_payments := (wallets u).upcoming_payments + X } ∧
      (move_to_balance application wallets).1 u =
        { wallets u with
            upcoming_payments := (wallets u).upcoming_payments - X
            current_balance := (wallets u).current_balance + X
            total_earned := (wallets u).total_earned + X }) ∧
    (application.assigned_hq = some u →
      application.scholarship.hq_commission = X → 0 < X →
      application.assigned_agent ≠ some u →
      (add_upcoming_payments application wallets).1 u =
        { wallets u with upcoming_payments := (wallets u).upcoming_payments + X } ∧
      (move_to_balance application wallets).1 u =
        { wallets u with
            upcoming_payments := (wallets u).upcoming_payments - X
            current_balance := (wallets u).current_balance + X
            total_earned := (wallets u).total_earned + X }) := by
  constructor
  · intro ha hX hpos hne
    subst hX
    exact ⟨add_upcoming_agent_eq wallets ha hpos hne,
      move_to_balance_agent_eq wallets ha hpos hne⟩
  · intro hh hX hpos hne
    subst hX
    exact ⟨add_upcoming_hq_eq wallets hh hpos hne,
      move_to_balance_hq_eq wallets hh hpos hne⟩

/-- Sample wallet table and application used to witness the commission
claims: agent user 1 with commission 10, HQ user 2 with commission 7. -/
def sampleWallets : ℕ → Wallet := fun _ => walletInit

def sampleApp : Application := newApplication ⟨10, 7⟩ (some 1) (some 2)

theorem C4_commission_frame_witness :
    ((add_upcoming_payments sampleApp sampleWallets).1 1 =
        { sampleWallets 1 with
            upcoming_payments := (sampleWallets 1).upcoming_payments + 10 } ∧
      (move_to_balance sampleApp sampleWallets).1 1 =
        { sampleWallets 1 with
            upcoming_payments := (sampleWallets 1).upcoming_payments - 10
            current_balance := (sampleWallets 1).current_balance + 10
            total_earned := (sampleWallets 1).total_earned + 10 }) ∧
    ((add_upcoming_payments sampleApp sampleWallets).1 2 =
        { sampleWallets 2 with
            upcoming_payments := (sampleWallets 2).upcoming_payments + 7 } ∧
      (move_to_balance sampleApp sampleWallets).1 2 =
        { sampleWallets 2 with
            upcoming_payments := (sampleWallets 2).upcoming_payments - 7
            current_balance := (sampleWallets 2).current_balance + 7
            total_earned := (sampleWallets 2).total_earned + 7 }) :=
  ⟨(C4_commission_frame sampleWallets sampleApp 1 10).1 rfl rfl (by norm_num) (by simp [sampleApp, newApplication]),
   (C4_commission_frame sampleWallets sampleApp 2 7).2 rfl rfl (by norm_num) (by simp [sampleApp, newApplication])⟩

/-- C9: add_upcoming_payments is not idempotent — running it twice for
the same application credits the assigned agent's wallet with twice the
agent commission, and symmetrically the assigned HQ user's wallet with
twice the HQ commission. -/
theorem C9_double_credit (wallets : ℕ → Wallet) (application : Application) (u v : ℕ) :
    (application.assigned_agent = some u →
      0 < application.scholarship.agent_commission →
      application.assigned_hq ≠ some u →
      ((add_upcoming_payments application
          ((add_upcoming_payments application wallets).1)).1 u).upcoming_payments =
        (wallets u).upcoming_payments + 2 * application.scholarship.agent_commission) ∧
    (application.assigned_hq = some v →
      0 < application.scholarship.hq_commission →
      application.assigned_agent ≠ some v →
      ((add_upcoming_payments application
          ((add_upcoming_payments application wallets).1)).1 v).upcoming_payments =
        (wallets v).upcoming_payments + 2 * application.scholarship.hq_commission) := by
  constructor
  · intro ha hpos hne
    rw [add_upcoming_agent_eq _ ha hpos hne, add_upcoming_agent_eq wallets ha hpos hne]
    simp
    ring
  · intro hh hpos hne
    rw [add_upcoming_hq_eq _ hh hpos hne, add_upcoming_hq_eq wallets hh hpos hne]
    simp
    ring

theorem C9_double_credit_witness :
    ((add_upcoming_payments sampleApp
        ((add_upcoming_payments sampleApp sampleWallets).1)).1 1).upcoming_payments =
      (sampleWallets 1).upcoming_payments + 2 * 10 ∧
    ((add_upcoming_payments sampleApp
        ((add_upcoming_payments sampleApp sampleWallets).1)).1 2).upcoming_payments =
      (sampleWallets 2).upcoming_payments + 2 * 7 :=
  ⟨(C9_double_credit sampleWallets sampleApp 1 2).1 rfl
      (by norm_num [sampleApp, newApplication]) (by simp [sampleApp, newApplication]),
   (C9_double_credit sampleWallets sampleApp 1 2).2 rfl
      (by norm_num [sampleApp, newApplication]) (by simp [sampleApp, newApplication])⟩

/-- C5 counterexample: the claim that request_withdrawal fails with
InsufficientFunds whenever amount > current_balance is false — with
balance 50 and amount 60 the amount exceeds the balance, yet the source
checks the $100 minimum first and raises the below-minimum error. -/
theorem C5_counterexample :
    (⟨50, 0, 0, 0, 0⟩ : Wallet).current_balance < 60 ∧
    request_withdrawal ⟨50, 0, 0, 0, 0⟩ 60 = Except.error LedgerError.belowMinimum ∧
    request_withdrawal ⟨50, 0, 0, 0, 0⟩ 60 ≠ Except.error LedgerError.insufficientFunds := by
  refine ⟨by norm_num, ?_, ?_⟩
  · exact request_withdrawal_below_min _ (by norm_num)
  · rw [request_withdrawal_below_min _ (by norm_num)]
    simp

/-- C5 (amended): request_withdrawal fails with BelowMinimum when
amount < 100.00; it fails with InsufficientFunds when amount ≥ 100.00
and amount > current_balance (the minimum check runs first); on any
failure the ledger state — wallet fields, withdrawal requests and
transactions — is unchanged; on success it moves the amount from
current_balance to pending_withdrawals and returns a pending
WithdrawalRequest for that amount. -/
theorem C5_request_withdrawal_cases (w : Wallet) (a : Money) :
    (a < 100 → request_withdrawal w a = Except.error LedgerError.belowMinimum) ∧
    (100 ≤ a → w.current_balance < a →
      request_withdrawal w a = Except.error LedgerError.insufficientFunds) ∧
    (∀ e, request_withdrawal w a = Except.error e →
      ∀ s : LedgerState, s.wallet = w → step s (Op.requestWithdrawal a) = s) ∧
    (100 ≤ a → a ≤ w.current_balance →
      request_withdrawal w a =
        Except.ok
          ({ w with
              current_balance := w.current_balance - a
              pending_withdrawals := w.pending_withdrawals + a },
           { amount := a, status := WStatus.pending, rejection_reason := none })) := by
  refine ⟨fun h => request_withdrawal_below_min w h,
    fun hmin hbal => request_withdrawal_insufficient (not_lt.mpr hmin) hbal,
    ?_,
    fun hmin hbal => request_withdrawal_ok (not_lt.mpr hmin) (not_lt.mpr hbal)⟩
  intro e he s hs
  simp only [step, hs, he]

theorem C5_request_withdrawal_cases_witness :
    request_withdrawal ⟨50, 20, 30, 40, 60⟩ 200 = Except.error LedgerError.insufficientFunds :=
  (C5_request_withdrawal_cases ⟨50, 20, 30, 40, 60⟩ 200).2.1 (by norm_num)
    (by show (50 : ℚ) < 200; norm_num)

/-- C6: a successful request_withdrawal immediately followed by
approve_withdrawal of the created request leaves current_balance
decreased by the amount, total_withdrawn increased by the amount,
pending_withdrawals back at its pre-request value, and
upcoming_payments and total_earned unchanged. -/
theorem C6_request_then_approve (w w1 w2 : Wallet) (a : Money)
    (r1 r2 : WithdrawalRequest)
    (hmin : 100 ≤ a) (hbal : a ≤ w.current_balance)
    (hreq : request_withdrawal w a = Except.ok (w1, r1))
    (happ : approve_withdrawal w1 r1 = Except.ok (w2, r2)) :
    w2.current_balance = w.current_balance - a ∧
    w2.total_withdrawn = w.total_withdrawn + a ∧
    w2.pending_withdrawals = w.pending_withdrawals ∧
    w2.upcoming_payments = w.upcoming_payments ∧
    w2.total_earned = w.total_earned := by
  rw [request_withdrawal_ok (not_lt.mpr hmin) (not_lt.mpr hbal)] at hreq
  simp only [Except.ok.injEq, Prod.mk.injEq] at hreq
  obtain ⟨hw1, hr1⟩ := hreq
  rw [← hw1, ← hr1, approve_withdrawal_pending rfl] at happ
  simp only [Except.ok.injEq, Prod.mk.injEq] at happ
  obtain ⟨hw2, hr2⟩ := happ
  rw [← hw2]
  refine ⟨rfl, rfl, ?_, rfl, rfl⟩
  simp

theorem C6_request_then_approve_witness :
    (⟨50, 20, 30, 40, 150⟩ : Wallet).current_balance =
      (⟨150, 20, 30, 40, 50⟩ : Wallet).current_balance - 100 ∧
    (⟨50, 20, 30, 40, 150⟩ : Wallet).total_withdrawn =
      (⟨150, 20, 30, 40, 50⟩ : Wallet).total_withdrawn + 100 ∧
    (⟨50, 20, 30, 40, 150⟩ : Wallet).pending_withdrawals =
      (⟨150, 20, 30, 40, 50⟩ : Wallet).pending_withdrawals ∧
    (⟨50, 20, 30, 40, 150⟩ : Wallet).upcoming_payments =
      (⟨150, 20, 30, 40, 50⟩ : Wallet).upcoming_payments ∧
    (⟨50, 20, 30, 40, 150⟩ : Wallet).total_earned =
      (⟨150, 20, 30, 40, 50⟩ : Wallet).total_earned :=
  C6_request_then_approve ⟨150, 20, 30, 40, 50⟩ ⟨50, 20, 130, 40, 50⟩ ⟨50, 20, 30, 40, 150⟩
    100 ⟨100, WStatus.pending, none⟩ ⟨100, WStatus.approved, none⟩
    (by norm_num) (by show (100 : ℚ) ≤ 150; norm_num)
    (by rw [request_withdrawal_ok (by norm_num) (by show ¬ (150 : ℚ) < 100; norm_num)]; norm_num)
    (by rw [approve_withdrawal_pending rfl]; norm_num)

/-- C7: a successful request_withdrawal followed by reject_withdrawal of
the created request restores current_balance and pending_withdrawals to
their pre-request values and leaves upcoming_payments, total_earned and
total_withdrawn unchanged. -/
theorem C7_request_then_reject (w w1 w2 : Wallet) (a : Money) (reason : String)
    (r1 r2 : WithdrawalRequest)
    (hmin : 100 ≤ a) (hbal : a ≤ w.current_balance)
    (hreq : request_withdrawal w a = Except.ok (w1, r1))
    (hrej : reject_withdrawal w1 r1 reason = Except.ok (w2, r2)) :
    w2.current_balance = w.current_balance ∧
    w2.pending_withdrawals = w.pending_withdrawals ∧
    w2.upcoming_payments = w.upcoming_payments ∧
    w2.total_earned = w.total_earned ∧
    w2.total_withdrawn = w.total_withdrawn := by
  rw [request_withdrawal_ok (not_lt.mpr hmin) (not_lt.mpr hbal)] at hreq
  simp only [Except.ok.injEq, Prod.mk.injEq] at hreq
  obtain ⟨hw1, hr1⟩ := hreq
  rw [← hw1, ← hr1, reject_withdrawal_pending reason rfl] at hrej
  simp only [Except.ok.injEq, Prod.mk.injEq] at hrej
  obtain ⟨hw2, hr2⟩ := hrej
  rw [← hw2]
  refine ⟨?_, ?_, rfl, rfl, rfl⟩
  · simp
  · simp

theorem C7_request_then_reject_witness :
    (⟨150, 20, 30, 40, 50⟩ : Wallet).current_balance =
      (⟨150, 20, 30, 40, 50⟩ : Wallet).current_balance ∧
    (⟨150, 20, 30, 40, 50⟩ : Wallet).pending_withdrawals =
      (⟨150, 20, 30, 40, 50⟩ : Wallet).pending_withdrawals ∧
    (⟨150, 20, 30, 40, 50⟩ : Wallet).upcoming_payments =
      (⟨150, 20, 30, 40, 50⟩ : Wallet).upcoming_payments ∧
    (⟨150, 20, 30, 40, 50⟩ : Wallet).total_earned =
      (⟨150, 20, 30, 40, 50⟩ : Wallet).total_earned ∧
    (⟨150, 20, 30, 40, 50⟩ : Wallet).total_withdrawn =
      (⟨150, 20, 30, 40, 50⟩ : Wallet).total_withdrawn :=
  C7_request_then_reject ⟨150, 20, 30, 40, 50⟩ ⟨50, 20, 130, 40, 50⟩ ⟨150, 20, 30, 40, 50⟩
    100 "not now" ⟨100, WStatus.pending, none⟩ ⟨100, WStatus.rejected, some "not now"⟩
    (by norm_num) (by show (100 : ℚ) ≤ 150; norm_num)
    (by rw [request_withdrawal_ok (by norm_num) (by show ¬ (150 : ℚ) < 100; norm_num)]; norm_num)
    (by rw [reject_withdrawal_pending _ rfl]; norm_num)

/-- C8: approve_withdrawal and reject_withdrawal on a request whose
status is not pending fail with InvalidState and leave the ledger state
— wallet and request included — unchanged; in particular a request that
was just approved cannot be approved again, so approved and rejected are
terminal. -/
theorem C8_processed_requests_terminal (w : Wallet) (r : WithdrawalRequest)
    (reason : String) (h : r.status ≠ WStatus.pending) :
    approve_withdrawal w r = Except.error LedgerError.invalidState ∧
    reject_withdrawal w r reason = Except.error LedgerError.invalidState ∧
    (∀ s : LedgerState, ∀ i : ℕ, ∀ hi : i < s.requests.length,
      s.requests.get ⟨i, hi⟩ = r →
      step s (Op.approveWithdrawal i) = s ∧ step s (Op.rejectWithdrawal i reason) = s) ∧
    (∀ w1 w2 : Wallet, ∀ r1 r2 : WithdrawalRequest,
      approve_withdrawal w1 r1 = Except.ok (w2, r2) →
      approve_withdrawal w2 r2 = Except.error LedgerError.invalidState) := by
  refine ⟨approve_withdrawal_not_pending h, reject_withdrawal_not_pending reason h, ?_, ?_⟩
  · intro s i hi hr
    constructor
    · simp only [step, dif_pos hi, hr, approve_withdrawal_not_pending h]
    · simp only [step, dif_pos hi, hr, reject_withdrawal_not_pending reason h]
  · intro w1 w2 r1 r2 happ
    by_cases hp : r1.status = WStatus.pending
    · rw [approve_withdrawal_pending hp] at happ
      simp only [Except.ok.injEq, Prod.mk.injEq] at happ
      obtain ⟨hw2, hr2⟩ := happ
      rw [← hr2]
      exact approve_withdrawal_not_pending (by simp)
    · rw [approve_withdrawal_not_pending hp] at happ
      cases happ

theorem C8_processed_requests_terminal_witness :
    approve_withdrawal walletInit ⟨100, WStatus.approved, none⟩ =
      Except.error LedgerError.invalidState ∧
    reject_withdrawal walletInit ⟨100, WStatus.approved, none⟩ "dup" =
      Except.error LedgerError.invalidState :=
  ⟨(C8_processed_requests_terminal walletInit ⟨100, WStatus.approved, none⟩ "dup"
      (by simp)).1,
   (C8_processed_requests_terminal walletInit ⟨100, WStatus.approved, none⟩ "dup"
      (by simp)).2.1⟩

/-- C10: when the amount is both below the $100 minimum and above the
current balance, request_withdrawal fails with the below-minimum error,
not with insufficient funds — the minimum check takes priority. -/
theorem C10_minimum_check_first (w : Wallet) (a : Money)
    (hmin : a < 100) (_hbal : w.current_balance < a) :
    request_withdrawal w a = Except.error LedgerError.belowMinimum ∧
    request_withdrawal w a ≠ Except.error LedgerError.insufficientFunds := by
  refine ⟨request_withdrawal_below_min w hmin, ?_⟩
  rw [request_withdrawal_below_min w hmin]
  simp

theorem C10_minimum_check_first_witness :
    request_withdrawal ⟨40, 0, 0, 0, 0⟩ 50 = Except.error LedgerError.belowMinimum ∧
    request_withdrawal ⟨40, 0, 0, 0, 0⟩ 50 ≠ Except.error LedgerError.insufficientFunds :=
  C10_minimum_check_first ⟨40, 0, 0, 0, 0⟩ 50 (by norm_num)
    (by show (40 : ℚ) < 50; norm_num)

end ConsultantSite
